import Mathlib

set_option maxHeartbeats 1000000

/-
Shallow embedding of `src/server-manager.ts` (class `McpServerManager`).

The registry (`this.clients`, a JS `Map<string, Client>`) is modelled as an
association list preserving insertion order.  External collaborators — the
MCP client sessions, the regex engine, the URL parser, the host process
environment and the blueprint-configuration fetch — are modelled as oracle
parameters: a session is characterised by the outcomes of its `listTools`
and `close` calls, the regex engine by a compile function returning a
search-from-position matcher, and so on.  Thrown JS errors are modelled as
`Except` values tagged by the throw site, carrying the message pieces the
code interpolates.
-/

namespace Muxio

/-- A capability descriptor (tool) as reported by a backend: a name and a
human-readable description, each possibly absent in the raw response, plus
an opaque input-schema payload that the manager passes through unmodified. -/
structure Tool where
  name : Option String
  description : Option String
  inputSchema : Option String
deriving Repr, DecidableEq

/-- Projection of a tool to name and description only, as produced by
`listToolsInServer` and by the two search operations (lines 266-269 and
299-302 of `server-manager.ts`). -/
structure ToolSummary where
  name : Option String
  description : Option String
deriving Repr, DecidableEq

/-- The projection `(tool) => ({name: tool.name, description: tool.description})`. -/
def toSummary (t : Tool) : ToolSummary :=
  ⟨t.name, t.description⟩

/-- JavaScript truthiness of an optional string field: `undefined` and the
empty string are falsy, every other string is truthy. -/
def truthy : Option String → Bool
  | none => false
  | some s => decide (s ≠ "")

/-- The `tools` member of a `client.listTools()` response: `none` models a
response whose `tools` member is missing or not an array (the
`!toolsResponse.tools || !Array.isArray(toolsResponse.tools)` guard). -/
abbrev ToolsResult := Option (List Tool)

deriving instance DecidableEq for Except

/-- The observable behaviour of one connected MCP client session: the
outcome of its `listTools()` call and of its `close()` call. -/
structure Client where
  listToolsResult : Except String ToolsResult
  closeResult : Except String Unit
deriving Repr, DecidableEq

/-- Registry state: the manager's `clients` map from server name to client,
modelled as an association list in insertion order (a JS `Map` preserves
insertion order for iteration and `keys()`). -/
structure ManagerState where
  clients : List (String × Client)
deriving Repr, DecidableEq

/-- `Map.prototype.get`: value of the first entry with the given key. -/
def mapGet {α : Type} : List (String × α) → String → Option α
  | [], _ => none
  | (k, v) :: rest, key => if k = key then some v else mapGet rest key

/-- `Map.prototype.has`. -/
def mapHas {α : Type} : List (String × α) → String → Bool
  | [], _ => false
  | (k, _) :: rest, key => if k = key then true else mapHas rest key

/-- `Map.prototype.delete`: removes the entry with the given key. -/
def mapDelete {α : Type} : List (String × α) → String → List (String × α)
  | [], _ => []
  | (k, v) :: rest, key =>
    if k = key then mapDelete rest key else (k, v) :: mapDelete rest key

/-- `Map.prototype.set`: replaces the value in place when the key is
present, otherwise appends the new entry at the end. -/
def mapSet {α : Type} (l : List (String × α)) (key : String) (v : α) :
    List (String × α) :=
  if mapHas l key then l.map (fun p => if p.1 = key then (key, v) else p)
  else l ++ [(key, v)]

/-- `Map.prototype.keys` as an array, in insertion order
(`Array.from(this.clients.keys())`, line 331). -/
def mapKeys {α : Type} (l : List (String × α)) : List String :=
  l.map Prod.fst

/-- The distinguishable errors thrown by `McpServerManager`, tagged by
throw site, carrying the data interpolated into the thrown message. -/
inductive McpError where
  | notConnected (serverName : String)
  | alreadyConnected (serverName : String)
  | missingCommand (serverName : String)
  | missingUrl (serverName : String)
  | invalidUrl (url : String)
  | connectionFailed (serverName cause : String)
  | disconnectFailed (serverName cause : String)
  | invalidPattern (msg : String)
  | regexSyntaxError (msg : String)
  | sessionFailure (msg : String)
  | noBlueprintId
  | fetchFailed (msg : String)
deriving Repr, DecidableEq

/-- The `.message` of the corresponding thrown JS `Error`, as built by the
template literals in `server-manager.ts`. -/
def McpError.message : McpError → String
  | .notConnected n => "Not connected to server '" ++ n ++ "'."
  | .alreadyConnected n => "Already connected to server '" ++ n ++ "'."
  | .missingCommand n => "Stdio server '" ++ n ++ "' requires a command."
  | .missingUrl n => "HTTP server '" ++ n ++ "' requires a URL."
  | .invalidUrl u => "Invalid URL: " ++ u
  | .connectionFailed n c => "Failed to connect to server '" ++ n ++ "': " ++ c
  | .disconnectFailed n c => "Failed to disconnect from server '" ++ n ++ "': " ++ c
  | .invalidPattern m => m
  | .regexSyntaxError m => m
  | .sessionFailure m => m
  | .noBlueprintId => "Blueprint ID not specified."
  | .fetchFailed m => m

/-- `private getClient` (lines 429-437): look up the client, throwing
`Not connected to server '...'` when absent. -/
def getClient (st : ManagerState) (serverName : String) : Except McpError Client :=
  match mapGet st.clients serverName with
  | none => Except.error (McpError.notConnected serverName)
  | some c => Except.ok c

/-- `listTools` (lines 228-231): forwards the session's `listTools()`
response, propagating a session failure as a thrown error. -/
def listTools (st : ManagerState) (serverName : String) :
    Except McpError ToolsResult :=
  match getClient st serverName with
  | Except.error e => Except.error e
  | Except.ok c =>
    match c.listToolsResult with
    | Except.error msg => Except.error (McpError.sessionFailure msg)
    | Except.ok r => Except.ok r

/-- `listToolsInServer` (lines 256-271): same lookup, but projects each
descriptor down to name and description; an absent or non-array `tools`
member degrades to an empty list. -/
def listToolsInServer (st : ManagerState) (serverName : String) :
    Except McpError (List ToolSummary) :=
  match getClient st serverName with
  | Except.error e => Except.error e
  | Except.ok c =>
    match c.listToolsResult with
    | Except.error msg => Except.error (McpError.sessionFailure msg)
    | Except.ok none => Except.ok []
    | Except.ok (some tools) => Except.ok (tools.map toSummary)

/-- `listServers` / `getConnectedServers` (lines 308-310, 330-332). -/
def getConnectedServers (st : ManagerState) : List String :=
  mapKeys st.clients

/-- The `searchIn` argument of the two search operations. -/
inductive SearchScope where
  | name
  | description
  | both
deriving Repr, DecidableEq

/-- The regex engine's search primitive for one compiled pattern: given a
subject string and a start position, the end position of the first match at
or after that position, or `none`.  This is the oracle interface to the
external `RegExp` engine. -/
abbrev Matcher := String → Nat → Option Nat

/-- `RegExp.prototype.test` for a regex compiled with the `g` flag: the
search starts at the regex object's `lastIndex`; on a match `lastIndex` is
set to the match end, on a miss it is reset to `0`.  Returns the outcome
and the updated `lastIndex`. -/
def jsTestG (m : Matcher) (s : String) (lastIndex : Nat) : Bool × Nat :=
  match m s lastIndex with
  | some stop => (true, stop)
  | none => (false, 0)

/-- The filter body of `findToolsInServer` (lines 292-296), for the
`g`-flagged regex it builds: `nameMatch` and `descriptionMatch` are both
evaluated (each with JS `&&` short-circuiting), threading the shared regex
object's `lastIndex` through the `test` calls in evaluation order. -/
def toolTestG (scope : SearchScope) (m : Matcher) (t : Tool) (li : Nat) :
    Bool × Nat :=
  let nm :=
    if scope = SearchScope.description then (false, li)
    else if truthy t.name then jsTestG m (t.name.getD "") li
    else (false, li)
  let dm :=
    if scope = SearchScope.name then (false, nm.2)
    else if truthy t.description then jsTestG m (t.description.getD "") nm.2
    else (false, nm.2)
  (nm.1 || dm.1, dm.2)

/-- `Array.prototype.filter` over the tools with the stateful predicate of
`findToolsInServer`, threading the regex `lastIndex` left to right. -/
def filterToolsG (scope : SearchScope) (m : Matcher) :
    List Tool → Nat → List Tool
  | [], _ => []
  | t :: ts, li =>
    let r := toolTestG scope m t li
    if r.1 then t :: filterToolsG scope m ts r.2
    else filterToolsG scope m ts r.2

/-- `findToolsInServer` (lines 276-303): looks up the client, fetches its
listing, degrades an absent/non-array `tools` member to `[]`, then compiles
the pattern (with flags `"g"` or `"gi"`; an engine syntax error propagates
uncaught), filters with the shared `g`-flagged regex and projects.  The
`compile` oracle maps (pattern, ignoreCase) to the engine's matcher or its
syntax-error message. -/
def findToolsInServer (compile : String → Bool → Except String Matcher)
    (st : ManagerState) (serverName pattern : String)
    (searchIn : SearchScope) (caseSensitive : Bool) :
    Except McpError (List ToolSummary) :=
  match getClient st serverName with
  | Except.error e => Except.error e
  | Except.ok c =>
    match c.listToolsResult with
    | Except.error msg => Except.error (McpError.sessionFailure msg)
    | Except.ok none => Except.ok []
    | Except.ok (some tools) =>
      match compile pattern (!caseSensitive) with
      | Except.error e => Except.error (McpError.regexSyntaxError e)
      | Except.ok m =>
        Except.ok ((filterToolsG searchIn m tools 0).map toSummary)

/-- The filter body of `findTools` (lines 367-370): the regex there has no
`g` flag, so `test` always searches from position `0` and is stateless. -/
def toolMatchS (scope : SearchScope) (m : Matcher) (t : Tool) : Bool :=
  (decide (scope ≠ SearchScope.description) && truthy t.name
      && (m (t.name.getD "") 0).isSome)
    || (decide (scope ≠ SearchScope.name) && truthy t.description
      && (m (t.description.getD "") 0).isSome)

/-- One slot of the `findTools` result object: either a projected matched
tool or the synthetic `{error: ...}` marker substituted for a backend whose
listing call failed. -/
inductive SearchEntry where
  | tool (name description : Option String)
  | errorMarker (msg : String)
deriving Repr, DecidableEq

/-- The per-server loop of `findTools` (lines 362-386): each server's
listing is fetched inside a `try`; a failure becomes a single synthetic
error-marker entry; an absent/non-array `tools` member or an empty match
list produces no entry at all. -/
def findToolsGo (scope : SearchScope) (m : Matcher) (st : ManagerState) :
    List String → List (String × List SearchEntry)
  | [] => []
  | n :: rest =>
    match listTools st n with
    | Except.error e =>
      (n, [SearchEntry.errorMarker ("Failed to search tools: " ++ e.message)])
        :: findToolsGo scope m st rest
    | Except.ok none => findToolsGo scope m st rest
    | Except.ok (some tools) =>
      let matched := (tools.filter (toolMatchS scope m)).map
        (fun t => SearchEntry.tool t.name t.description)
      if matched.isEmpty then findToolsGo scope m st rest
      else (n, matched) :: findToolsGo scope m st rest

/-- `findTools` (lines 337-389): returns `{}` at once when no server is
connected; otherwise compiles the pattern (flags `""` or `"i"`, wrapping a
compile failure as `Invalid regex pattern: ...`) and scans every connected
server with the per-server loop. -/
def findTools (compile : String → Bool → Except String Matcher)
    (st : ManagerState) (pattern : String)
    (searchIn : SearchScope) (caseSensitive : Bool) :
    Except McpError (List (String × List SearchEntry)) :=
  let servers := getConnectedServers st
  if servers.isEmpty then Except.ok []
  else
    match compile pattern (!caseSensitive) with
    | Except.error e =>
      Except.error (McpError.invalidPattern ("Invalid regex pattern: " ++ e))
    | Except.ok m => Except.ok (findToolsGo searchIn m st servers)

/-- `disconnectServer` (lines 394-417): throws `NotConnected` when absent;
otherwise closes the session, and only after a successful close deletes
the registry entry — a close failure is rethrown as `DisconnectFailed`
with the entry still in place.  Returns the outcome together with the
registry state after the call. -/
def disconnectServer (st : ManagerState) (serverName : String) :
    Except McpError Unit × ManagerState :=
  match mapGet st.clients serverName with
  | none => (Except.error (McpError.notConnected serverName), st)
  | some c =>
    match c.closeResult with
    | Except.ok _ => (Except.ok (), ⟨mapDelete st.clients serverName⟩)
    | Except.error cause =>
      (Except.error (McpError.disconnectFailed serverName cause), st)

/-- The loop of `disconnectAll` over the snapshot of server names: each
`disconnectServer` is awaited with no `try`, so the first failure
propagates and aborts the remaining iterations. -/
def disconnectAllGo : List String → ManagerState →
    Except McpError Unit × ManagerState
  | [], st => (Except.ok (), st)
  | n :: rest, st =>
    match disconnectServer st n with
    | (Except.ok _, st2) => disconnectAllGo rest st2
    | (Except.error e, st2) => (Except.error e, st2)

/-- `disconnectAll` (lines 422-427). -/
def disconnectAll (st : ManagerState) : Except McpError Unit × ManagerState :=
  disconnectAllGo (getConnectedServers st) st

/-- Connection parameters (`ConnectMcpParams | McpServerConfig`): every
field optional in the source type. -/
structure ConnectParams where
  type : Option String
  command : Option String
  args : Option (List String)
  env : Option (List (String × String))
  url : Option String
  headers : Option (List (String × String))
deriving Repr, DecidableEq

/-- Line 158: `params.type || (params.command ? "stdio" : "http")` —
JS `||` and `?:` on strings use truthiness. -/
def transportTypeOf (p : ConnectParams) : String :=
  if truthy p.type then p.type.getD ""
  else if truthy p.command then "stdio" else "http"

/-- The transport object handed to the SDK `Client`: either a stdio
transport (command, args, merged environment) or a streamable HTTP
transport (parsed URL kept abstract as its text, optional headers). -/
inductive Transport where
  | stdio (command : String) (args : List String)
      (env : List (String × String))
  | http (url : String) (requestHeaders : Option (List (String × String)))
deriving Repr, DecidableEq

/-- JS object update `o[k] = v`: replaces in place or appends (key
insertion order preserved). -/
def objSet (o : List (String × String)) (k v : String) :
    List (String × String) :=
  if o.any (fun p => p.1 = k) then
    o.map (fun p => if p.1 = k then (k, v) else p)
  else o ++ [(k, v)]

/-- `Object.assign(base, overlay)` / spread merge: overlay wins on
conflicting keys. -/
def objAssign (base overlay : List (String × String)) :
    List (String × String) :=
  overlay.foldl (fun acc kv => objSet acc kv.1 kv.2) base

/-- Lines 157-202 of `connectToServer`: transport selection and parameter
validation.  In the HTTP branch a missing (falsy) URL throws, then
`new URL(...)` throws uncaught on a parse failure (the `parseUrl` oracle
models the WHATWG URL parser); in the stdio branch a missing (falsy)
command throws, and the spawned process environment is the host
environment overlaid with `params.env`. -/
def buildTransport (parseUrl : String → Option String)
    (hostEnv : List (String × String)) (serverName : String)
    (p : ConnectParams) : Except McpError Transport :=
  if transportTypeOf p = "http" then
    if !truthy p.url then Except.error (McpError.missingUrl serverName)
    else
      match parseUrl (p.url.getD "") with
      | none => Except.error (McpError.invalidUrl (p.url.getD ""))
      | some u => Except.ok (Transport.http u p.headers)
  else
    if !truthy p.command then Except.error (McpError.missingCommand serverName)
    else
      Except.ok (Transport.stdio (p.command.getD "") (p.args.getD [])
        (objAssign hostEnv (p.env.getD [])))

/-- `connectToServer` (lines 147-223): rejects a name already in the map
before anything else; builds the transport; `client.connect(transport)`
(the `openRes` oracle, yielding the connected session's behaviour or the
transport-level failure message) is awaited inside a `try`, and only on
success is the client inserted into the map.  Returns the outcome together
with the registry state after the call. -/
def connectToServer (parseUrl : String → Option String)
    (hostEnv : List (String × String))
    (openRes : Transport → Except String Client)
    (st : ManagerState) (serverName : String) (p : ConnectParams) :
    Except McpError Unit × ManagerState :=
  if mapHas st.clients serverName then
    (Except.error (McpError.alreadyConnected serverName), st)
  else
    match buildTransport parseUrl hostEnv serverName p with
    | Except.error e => (Except.error e, st)
    | Except.ok tr =>
      match openRes tr with
      | Except.error cause =>
        (Except.error (McpError.connectionFailed serverName cause), st)
      | Except.ok client =>
        (Except.ok (), ⟨mapSet st.clients serverName client⟩)

/-- The loop of `loadFromBlueprint` over the configuration entries
(lines 120-141): a name already in the map is skipped with `continue`;
each `connectToServer` is awaited inside a `try` whose `catch` only logs,
so an individual connect failure never escapes the loop. -/
def loadLoop (parseUrl : String → Option String)
    (hostEnv : List (String × String))
    (openRes : String → Transport → Except String Client) :
    List (String × ConnectParams) → ManagerState → ManagerState
  | [], st => st
  | (n, p) :: rest, st =>
    if mapHas st.clients n then loadLoop parseUrl hostEnv openRes rest st
    else
      match connectToServer parseUrl hostEnv (openRes n) st n p with
      | (_, st2) => loadLoop parseUrl hostEnv openRes rest st2

/-- `loadFromBlueprint` (lines 99-142): throws when neither the argument
nor the stored blueprint id is truthy; `fetchConfigFromApi` (the
`fetchResult` oracle: the `mcpServers` entries, or the fetch/format
failure it throws) may throw; an empty `mcpServers` object warns and
returns; otherwise the connect loop runs to completion. -/
def loadFromBlueprint (parseUrl : String → Option String)
    (hostEnv : List (String × String))
    (openRes : String → Transport → Except String Client)
    (fetchResult : Except String (List (String × ConnectParams)))
    (argId mgrId : Option String) (st : ManagerState) :
    Except McpError Unit × ManagerState :=
  let id := if truthy argId then argId else mgrId
  if !truthy id then (Except.error McpError.noBlueprintId, st)
  else
    match fetchResult with
    | Except.error e => (Except.error (McpError.fetchFailed e), st)
    | Except.ok entries =>
      if entries.isEmpty then (Except.ok (), st)
      else (Except.ok (), loadLoop parseUrl hostEnv openRes entries st)

/-- End position of the first occurrence of `needle` in the scanned list,
where `i` is the absolute position of the scanned list's head. -/
def subEndAux (needle : List Char) : List Char → Nat → Option Nat
  | [], i => if needle.isEmpty then some i else none
  | c :: rest, i =>
    if needle.isPrefixOf (c :: rest) then some (i + needle.length)
    else subEndAux needle rest (i + 1)

/-- The engine matcher for the literal pattern `read` (case-sensitive):
plain substring search from the given start position, reporting the match
end — exactly what `/read/g` does via `lastIndex`. -/
def readMatcher : Matcher := fun s i =>
  subEndAux "read".toList (s.toList.drop i) i

/-- A regex-engine oracle that compiles every pattern to `readMatcher`;
used to instantiate theorems at the concrete pattern `read`. -/
def compileRead : String → Bool → Except String Matcher :=
  fun _ _ => Except.ok readMatcher

/-- A regex-engine oracle on which every compilation fails, as the real
engine does on the pattern `(`. -/
def compileBad : String → Bool → Except String Matcher :=
  fun _ _ => Except.error "Invalid regular expression: /(/: Unterminated group"

/-- A session whose `close()` rejects. -/
def badCloseClient : Client :=
  ⟨Except.ok none, Except.error "close failed"⟩

/-- A session that reports a malformed listing and closes cleanly. -/
def plainClient : Client :=
  ⟨Except.ok none, Except.ok ()⟩

/-- A session whose `listTools()` rejects. -/
def failListClient : Client :=
  ⟨Except.error "boom", Except.ok ()⟩

/-- A session exposing the single tool `readFile`. -/
def readFileClient : Client :=
  ⟨Except.ok (some [⟨some "readFile", none, none⟩]), Except.ok ()⟩

/-- A session exposing zero tools (well-formed empty listing). -/
def emptyListClient : Client :=
  ⟨Except.ok (some []), Except.ok ()⟩

/-- A session exposing the two tools `readFile` and `readData`, both of
which the pattern `read` matches by name. -/
def twoReadClient : Client :=
  ⟨Except.ok (some [⟨some "readFile", none, none⟩,
    ⟨some "readData", none, none⟩]), Except.ok ()⟩

/-- Whether an operation returned normally rather than throwing. -/
def exceptOk {ε α : Type} : Except ε α → Bool
  | Except.ok _ => true
  | Except.error _ => false

/-- The result object of a `findTools` call that returned normally (`[]`
when it threw). -/
def okEntries :
    Except McpError (List (String × List SearchEntry)) →
      List (String × List SearchEntry)
  | Except.ok r => r
  | Except.error _ => []

example : readMatcher "readFile" 0 = some 4 := by decide
example : readMatcher "readFile" 4 = none := by decide
example : readMatcher "readData" 4 = none := by decide
example :
    findToolsInServer compileRead ⟨[("b", twoReadClient)]⟩ "b" "read"
      SearchScope.name true
      = Except.ok [⟨some "readFile", none⟩] := by decide
example :
    (match twoReadClient.listToolsResult with
      | Except.ok (some ts) =>
        (ts.filter (toolMatchS SearchScope.name readMatcher)).map toSummary
      | _ => [])
      = [⟨some "readFile", none⟩, ⟨some "readData", none⟩] := by decide
example :
    disconnectServer ⟨[("a", badCloseClient)]⟩ "a"
      = (Except.error (McpError.disconnectFailed "a" "close failed"),
         ⟨[("a", badCloseClient)]⟩) := by decide
example :
    disconnectAll ⟨[("a", badCloseClient), ("b", plainClient)]⟩
      = (Except.error (McpError.disconnectFailed "a" "close failed"),
         ⟨[("a", badCloseClient), ("b", plainClient)]⟩) := by decide
example :
    findTools compileBad ⟨[]⟩ "(" SearchScope.both false = Except.ok [] := by
  decide
example :
    findToolsInServer compileBad ⟨[("b", plainClient)]⟩ "b" "("
      SearchScope.both false = Except.ok [] := by decide
example :
    findTools compileRead ⟨[("a", failListClient), ("b", twoReadClient)]⟩
      "read" SearchScope.both false
      = Except.ok
          [("a", [SearchEntry.errorMarker "Failed to search tools: boom"]),
           ("b", [SearchEntry.tool (some "readFile") none,
                  SearchEntry.tool (some "readData") none])] := by decide

/-- A key that can be fetched is among the map's keys. -/
theorem mapGet_mem {α : Type} (l : List (String × α)) (k : String) (v : α)
    (h : mapGet l k = some v) : k ∈ mapKeys l := by
  induction l with
  | nil => simp [mapGet] at h
  | cons p rest ih =>
    obtain ⟨a, b⟩ := p
    by_cases hak : a = k
    · subst hak; simp [mapKeys]
    · simp only [mapGet, if_neg hak] at h
      simpa [mapKeys] using Or.inr (by simpa [mapKeys] using ih h)

/-- Deleting an absent key leaves the map unchanged. -/
theorem mapDelete_not_mem {α : Type} (l : List (String × α)) (k : String)
    (h : k ∉ mapKeys l) : mapDelete l k = l := by
  induction l with
  | nil => rfl
  | cons p rest ih =>
    obtain ⟨a, b⟩ := p
    simp only [mapKeys, List.map_cons, List.mem_cons, not_or] at h
    have hak : a ≠ k := fun hh => h.1 hh.symm
    simp only [mapDelete, if_neg hak]
    rw [ih (by simpa [mapKeys] using h.2)]

/-- Fetching a key present in the left part of an appended map ignores the
right part. -/
theorem mapGet_append_left {α : Type} (l l2 : List (String × α)) (k : String)
    (h : mapHas l k = true) : mapGet (l ++ l2) k = mapGet l k := by
  induction l with
  | nil => simp [mapHas] at h
  | cons p rest ih =>
    obtain ⟨a, b⟩ := p
    by_cases hak : a = k
    · simp [mapGet, hak]
    · simp only [mapHas, if_neg hak] at h
      simp [mapGet, hak, ih h]

/-- Membership in the left part of an appended map persists. -/
theorem mapHas_append_left {α : Type} (l l2 : List (String × α)) (k : String)
    (h : mapHas l k = true) : mapHas (l ++ l2) k = true := by
  induction l with
  | nil => simp [mapHas] at h
  | cons p rest ih =>
    obtain ⟨a, b⟩ := p
    by_cases hak : a = k
    · simp [mapHas, hak]
    · simp only [mapHas, if_neg hak] at h
      simp [mapHas, hak, ih h]

/-- Setting an absent key appends the entry at the end. -/
theorem mapSet_not_has {α : Type} (l : List (String × α)) (k : String) (v : α)
    (h : mapHas l k = false) : mapSet l k v = l ++ [(k, v)] := by
  simp [mapSet, h]

/-- A server name outside the scanned list gets no slot in the `findTools`
result object. -/
theorem findToolsGo_not_mem (scope : SearchScope) (m : Matcher)
    (st : ManagerState) (names : List String) (k : String)
    (h : k ∉ names) :
    mapGet (findToolsGo scope m st names) k = none := by
  induction names with
  | nil => rfl
  | cons n rest ih =>
    simp only [List.mem_cons, not_or] at h
    have hk : n ≠ k := fun hh => h.1 hh.symm
    have hrest := ih h.2
    cases hl : listTools st n with
    | error e => simp [findToolsGo, hl, mapGet, hk, hrest]
    | ok r =>
      cases r with
      | none => simp [findToolsGo, hl, hrest]
      | some tools =>
        by_cases hm : ((tools.filter (toolMatchS scope m)).map
            (fun t => SearchEntry.tool t.name t.description)).isEmpty = true
        · simp [findToolsGo, hl, hm, hrest]
        · simp [findToolsGo, hl, hm, mapGet, hk, hrest]

/-- The slot a scanned server gets in the `findTools` result object is
determined by that server's own listing outcome alone. -/
theorem findToolsGo_mem (scope : SearchScope) (m : Matcher)
    (st : ManagerState) (names : List String) (k : String) (c : Client)
    (hnd : names.Nodup) (hmem : k ∈ names)
    (hc : mapGet st.clients k = some c) :
    mapGet (findToolsGo scope m st names) k =
      (match c.listToolsResult with
        | Except.error msg =>
          some [SearchEntry.errorMarker ("Failed to search tools: " ++ msg)]
        | Except.ok none => none
        | Except.ok (some tools) =>
          if ((tools.filter (toolMatchS scope m)).map
              (fun t => SearchEntry.tool t.name t.description)).isEmpty
          then none
          else some ((tools.filter (toolMatchS scope m)).map
              (fun t => SearchEntry.tool t.name t.description))) := by
  induction names with
  | nil => simp at hmem
  | cons n rest ih =>
    rw [List.nodup_cons] at hnd
    rcases List.mem_cons.mp hmem with hkn | hkr
    · subst hkn
      have hnr : k ∉ rest := hnd.1
      have hlt : listTools st k =
          (match c.listToolsResult with
            | Except.error msg => Except.error (McpError.sessionFailure msg)
            | Except.ok r => Except.ok r) := by
        simp [listTools, getClient, hc]
      cases hres : c.listToolsResult with
      | error msg =>
        rw [hres] at hlt
        simp [findToolsGo, hlt, mapGet, McpError.message, hres]
      | ok r =>
        rw [hres] at hlt
        cases r with
        | none =>
          simp [findToolsGo, hlt, hres, findToolsGo_not_mem _ _ _ _ _ hnr]
        | some tools =>
          by_cases hm : ((tools.filter (toolMatchS scope m)).map
              (fun t => SearchEntry.tool t.name t.description)).isEmpty = true
          · simp [findToolsGo, hlt, hres, hm,
              findToolsGo_not_mem _ _ _ _ _ hnr]
          · simp [findToolsGo, hlt, hres, hm, mapGet]
    · have hkn : n ≠ k := fun hh => hnd.1 (hh ▸ hkr)
      have htail := ih hnd.2 hkr
      cases hl : listTools st n with
      | error e => simp [findToolsGo, hl, mapGet, hkn, htail]
      | ok r =>
        cases r with
        | none => simp [findToolsGo, hl, htail]
        | some tools =>
          by_cases hm : ((tools.filter (toolMatchS scope m)).map
              (fun t => SearchEntry.tool t.name t.description)).isEmpty = true
          · simp [findToolsGo, hl, hm, htail]
          · simp [findToolsGo, hl, hm, mapGet, hkn, htail]

/-- When every registered session closes cleanly, the `disconnectAll` loop
removes every entry and succeeds. -/
theorem disconnectAllGo_all_ok (l : List (String × Client))
    (hnd : (mapKeys l).Nodup)
    (hok : ∀ p ∈ l, p.2.closeResult = Except.ok ()) :
    disconnectAllGo (mapKeys l) ⟨l⟩ = (Except.ok (), ⟨[]⟩) := by
  induction l with
  | nil => rfl
  | cons p rest ih =>
    obtain ⟨n, c⟩ := p
    simp only [mapKeys, List.map_cons, List.nodup_cons] at hnd
    have hcok : c.closeResult = Except.ok () :=
      hok (n, c) (List.mem_cons_self _ _)
    have hdel : mapDelete rest n = rest :=
      mapDelete_not_mem rest n (by simpa [mapKeys] using hnd.1)
    have hds : disconnectServer ⟨(n, c) :: rest⟩ n
        = (Except.ok (), ⟨rest⟩) := by
      simp [disconnectServer, mapGet, hcok, mapDelete, hdel]
    have hrec := ih (by simpa [mapKeys] using hnd.2)
      (fun q hq => hok q (List.mem_cons_of_mem _ hq))
    simpa [mapKeys, disconnectAllGo, hds] using hrec

/-- The `disconnectAll` loop aborts at the first failing close: every entry
before it is removed, the failing entry and every entry after it remain. -/
theorem disconnectAllGo_abort (l1 l2 : List (String × Client)) (n : String)
    (c : Client) (cause : String)
    (hnd : (mapKeys (l1 ++ (n, c) :: l2)).Nodup)
    (hok : ∀ p ∈ l1, p.2.closeResult = Except.ok ())
    (hbad : c.closeResult = Except.error cause) :
    disconnectAllGo (mapKeys (l1 ++ (n, c) :: l2)) ⟨l1 ++ (n, c) :: l2⟩
      = (Except.error (McpError.disconnectFailed n cause), ⟨(n, c) :: l2⟩) := by
  induction l1 with
  | nil =>
    have hds : disconnectServer ⟨(n, c) :: l2⟩ n
        = (Except.error (McpError.disconnectFailed n cause),
           ⟨(n, c) :: l2⟩) := by
      simp [disconnectServer, mapGet, hbad]
    simp [mapKeys, disconnectAllGo, hds]
  | cons p rest ih =>
    obtain ⟨a, b⟩ := p
    simp only [List.cons_append, mapKeys, List.map_cons,
      List.nodup_cons] at hnd
    have hbok : b.closeResult = Except.ok () :=
      hok (a, b) (List.mem_cons_self _ _)
    have hdel : mapDelete (rest ++ (n, c) :: l2) a = rest ++ (n, c) :: l2 :=
      mapDelete_not_mem _ _ (by simpa [mapKeys] using hnd.1)
    have hds : disconnectServer ⟨(a, b) :: (rest ++ (n, c) :: l2)⟩ a
        = (Except.ok (), ⟨rest ++ (n, c) :: l2⟩) := by
      simp [disconnectServer, mapGet, hbok, mapDelete, hdel]
    have hrec := ih (by simpa [mapKeys] using hnd.2)
      (fun q hq => hok q (List.mem_cons_of_mem _ hq))
    simpa [mapKeys, disconnectAllGo, hds] using hrec

/-- After a `connectToServer` call on an absent name, the registry is
either unchanged (on any failure) or extended by exactly the one new entry
appended at the end (on success). -/
theorem connectToServer_state (parseUrl : String → Option String)
    (hostEnv : List (String × String))
    (openRes : Transport → Except String Client)
    (st : ManagerState) (serverName : String) (p : ConnectParams)
    (h : mapHas st.clients serverName = false) :
    (connectToServer parseUrl hostEnv openRes st serverName p).2 = st ∨
    ∃ cl, (connectToServer parseUrl hostEnv openRes st serverName p).2
      = ⟨st.clients ++ [(serverName, cl)]⟩ := by
  cases hb : buildTransport parseUrl hostEnv serverName p with
  | error e => left; simp [connectToServer, h, hb]
  | ok tr =>
    cases ho : openRes tr with
    | error cause => left; simp [connectToServer, h, hb, ho]
    | ok cl =>
      right
      exact ⟨cl, by simp [connectToServer, h, hb, ho, mapSet_not_has _ _ _ h]⟩

/-- The `loadFromBlueprint` connect loop never touches an entry that was
already present when the loop reached it. -/
theorem loadLoop_preserves (parseUrl : String → Option String)
    (hostEnv : List (String × String))
    (openRes : String → Transport → Except String Client) (k : String) :
    ∀ (entries : List (String × ConnectParams)) (st : ManagerState),
      mapHas st.clients k = true →
      mapGet (loadLoop parseUrl hostEnv openRes entries st).clients k
        = mapGet st.clients k := by
  intro entries
  induction entries with
  | nil => intro st _; rfl
  | cons q rest ih =>
    intro st h
    obtain ⟨n, p⟩ := q
    by_cases hn : mapHas st.clients n = true
    · simpa [loadLoop, hn] using ih st h
    · have hn' : mapHas st.clients n = false := by
        simpa using hn
      cases hx : connectToServer parseUrl hostEnv (openRes n) st n p with
      | mk e st2 =>
        have hst2 := connectToServer_state parseUrl hostEnv (openRes n)
          st n p hn'
        rw [hx] at hst2
        rcases hst2 with h1 | ⟨cl, h2⟩
        · simp only at h1
          rw [h1] at hx
          simpa [loadLoop, hn', hx] using ih st h
        · simp only at h2
          have hget : mapGet st2.clients k = mapGet st.clients k := by
            rw [h2]; exact mapGet_append_left _ _ _ h
          have hhas : mapHas st2.clients k = true := by
            rw [h2]; exact mapHas_append_left _ _ _ h
          have := ih st2 hhas
          simp [loadLoop, hn', hx, this, hget]

/-- Claim C1 counterexample: against a connected backend `a` whose close
fails, the claim demands that `disconnect("a")` still remove the entry (so
a later listing no longer includes `a`); in fact `DisconnectFailed` is
surfaced but the entry survives the call and `a` is still listed. -/
theorem disconnectServer_removes_on_failure_cex :
    (disconnectServer ⟨[("a", badCloseClient)]⟩ "a").1
      = Except.error (McpError.disconnectFailed "a" "close failed") ∧
    getConnectedServers (disconnectServer ⟨[("a", badCloseClient)]⟩ "a").2
      = ["a"] := by decide

/-- Claim C1 (amended): when a connected backend's close fails,
`disconnectServer` surfaces `DisconnectFailed` carrying the cause but does
NOT remove the entry — the registry is left exactly as it was, so the name
still appears in the server listing and later operations on it do not fail
with `NotConnected`. -/
theorem disconnectServer_close_failure_keeps_entry (st : ManagerState)
    (serverName : String) (c : Client) (cause : String)
    (hc : mapGet st.clients serverName = some c)
    (hbad : c.closeResult = Except.error cause) :
    disconnectServer st serverName
      = (Except.error (McpError.disconnectFailed serverName cause), st) ∧
    serverName ∈ getConnectedServers (disconnectServer st serverName).2 := by
  have h1 : disconnectServer st serverName
      = (Except.error (McpError.disconnectFailed serverName cause), st) := by
    simp [disconnectServer, hc, hbad]
  refine ⟨h1, ?_⟩
  rw [h1]
  simpa [getConnectedServers] using mapGet_mem _ _ _ hc

/-- Concrete instance of the amended C1 behaviour. -/
theorem disconnectServer_close_failure_keeps_entry_witness :
    disconnectServer ⟨[("a", badCloseClient)]⟩ "a"
      = (Except.error (McpError.disconnectFailed "a" "close failed"),
         ⟨[("a", badCloseClient)]⟩) ∧
    "a" ∈ getConnectedServers
        (disconnectServer ⟨[("a", badCloseClient)]⟩ "a").2 :=
  disconnectServer_close_failure_keeps_entry ⟨[("a", badCloseClient)]⟩ "a"
    badCloseClient "close failed" (by decide) rfl

/-- Claim C2 counterexample: with backend `a` whose close fails followed by
backend `b` whose close succeeds, the claim demands that `b` still be
disconnected; in fact `disconnectAll` propagates `a`'s failure immediately
and `b` (and `a`) remain registered. -/
theorem disconnectAll_continues_cex :
    disconnectAll ⟨[("a", badCloseClient), ("b", plainClient)]⟩
      = (Except.error (McpError.disconnectFailed "a" "close failed"),
         ⟨[("a", badCloseClient), ("b", plainClient)]⟩) ∧
    mapHas (disconnectAll
        ⟨[("a", badCloseClient), ("b", plainClient)]⟩).2.clients "b"
      = true := by decide

/-- Claim C2 (amended): `disconnectAll` disconnects the registered names in
insertion order but awaits each `disconnectServer` with no error handling,
so the first close failure aborts the iteration and propagates as that
name's `DisconnectFailed`: the names already processed are removed, while
the failing name and every name after it remain registered.  When every
close succeeds, every name is disconnected and the registry is empty. -/
theorem disconnectAll_aborts_at_first_failure :
    (∀ (l1 l2 : List (String × Client)) (n : String) (c : Client)
        (cause : String),
        (mapKeys (l1 ++ (n, c) :: l2)).Nodup →
        (∀ p ∈ l1, p.2.closeResult = Except.ok ()) →
        c.closeResult = Except.error cause →
        disconnectAll ⟨l1 ++ (n, c) :: l2⟩
          = (Except.error (McpError.disconnectFailed n cause),
             ⟨(n, c) :: l2⟩)) ∧
    (∀ st : ManagerState, (mapKeys st.clients).Nodup →
        (∀ p ∈ st.clients, p.2.closeResult = Except.ok ()) →
        disconnectAll st = (Except.ok (), ⟨[]⟩)) := by
  constructor
  · intro l1 l2 n c cause hnd hok hbad
    simpa [disconnectAll, getConnectedServers] using
      disconnectAllGo_abort l1 l2 n c cause hnd hok hbad
  · intro st hnd hok
    simpa [disconnectAll, getConnectedServers] using
      disconnectAllGo_all_ok st.clients hnd hok

/-- Concrete instance of the amended C2 behaviour. -/
theorem disconnectAll_aborts_at_first_failure_witness :
    disconnectAll ⟨[("x", badCloseClient), ("y", plainClient)]⟩
      = (Except.error (McpError.disconnectFailed "x" "close failed"),
         ⟨[("x", badCloseClient), ("y", plainClient)]⟩) :=
  disconnectAll_aborts_at_first_failure.1 [] [("y", plainClient)] "x"
    badCloseClient "close failed" (by decide) (by simp) rfl

/-- Claim C3 counterexample: the claim demands an `InvalidPattern` failure
touching no backend for every registry state.  In fact (i) the all-backends
search on an empty registry returns an empty mapping before ever compiling
the pattern, and (ii) the single-backend search fetches the backend's
listing first, so a backend reporting a malformed listing makes the search
return `[]` with the invalid pattern never compiled. -/
theorem search_invalid_pattern_cex :
    findTools compileBad ⟨[]⟩ "(" SearchScope.both false = Except.ok [] ∧
    findToolsInServer compileBad ⟨[("b", plainClient)]⟩ "b" "("
      SearchScope.both false = Except.ok [] := by decide

/-- Claim C3 (amended): in the all-backends form with at least one
registered backend, a pattern that fails to compile fails with
`InvalidPattern` (wrapping the engine message) before any backend listing
is consulted, but an empty registry returns an empty mapping without
compiling the pattern at all.  In the single-backend form the backend's
listing is retrieved first: a listing failure surfaces instead, a
malformed listing shape returns `[]` with no error, and only a present
well-formed listing reaches compilation, whose failure then propagates as
the engine's raw syntax error rather than the wrapped `InvalidPattern`. -/
theorem search_invalid_pattern_behaviour :
    (∀ (compile : String → Bool → Except String Matcher) (st : ManagerState)
        (pattern : String) (scope : SearchScope) (cs : Bool) (e : String),
        st.clients ≠ [] →
        compile pattern (!cs) = Except.error e →
        findTools compile st pattern scope cs
          = Except.error (McpError.invalidPattern
              ("Invalid regex pattern: " ++ e))) ∧
    (∀ (compile : String → Bool → Except String Matcher) (pattern : String)
        (scope : SearchScope) (cs : Bool),
        findTools compile ⟨[]⟩ pattern scope cs = Except.ok []) ∧
    (∀ (compile : String → Bool → Except String Matcher) (st : ManagerState)
        (serverName : String) (c : Client) (pattern : String)
        (scope : SearchScope) (cs : Bool),
        mapGet st.clients serverName = some c →
        ((c.listToolsResult = Except.ok none →
            findToolsInServer compile st serverName pattern scope cs
              = Except.ok []) ∧
         (∀ msg, c.listToolsResult = Except.error msg →
            findToolsInServer compile st serverName pattern scope cs
              = Except.error (McpError.sessionFailure msg)) ∧
         (∀ tools e, c.listToolsResult = Except.ok (some tools) →
            compile pattern (!cs) = Except.error e →
            findToolsInServer compile st serverName pattern scope cs
              = Except.error (McpError.regexSyntaxError e)))) := by
  refine ⟨?_, ?_, ?_⟩
  · intro compile st pattern scope cs e hne hc
    have hemp : (getConnectedServers st).isEmpty = false := by
      cases hcl : st.clients with
      | nil => exact absurd hcl hne
      | cons a l => simp [getConnectedServers, mapKeys, hcl]
    simp [findTools, hemp, hc]
  · intro compile pattern scope cs
    rfl
  · intro compile st serverName c pattern scope cs hget
    refine ⟨?_, ?_, ?_⟩
    · intro hres
      simp [findToolsInServer, getClient, hget, hres]
    · intro msg hres
      simp [findToolsInServer, getClient, hget, hres]
    · intro tools e hres hc
      simp [findToolsInServer, getClient, hget, hres, hc]

/-- Concrete instance of the amended C3 behaviour. -/
theorem search_invalid_pattern_behaviour_witness :
    findTools compileBad ⟨[("s", plainClient)]⟩ "(" SearchScope.both false
      = Except.error (McpError.invalidPattern
          ("Invalid regex pattern: "
            ++ "Invalid regular expression: /(/: Unterminated group")) ∧
    findToolsInServer compileBad ⟨[("s", plainClient)]⟩ "s" "("
      SearchScope.both false = Except.ok [] :=
  ⟨search_invalid_pattern_behaviour.1 compileBad ⟨[("s", plainClient)]⟩ "("
      SearchScope.both false _ (by simp) rfl,
   (search_invalid_pattern_behaviour.2.2 compileBad ⟨[("s", plainClient)]⟩
      "s" plainClient "(" SearchScope.both false (by decide)).1 rfl⟩

/-- Claim C4 (code bug): `findToolsInServer` builds its regex with the `g`
flag (`caseSensitive ? "g" : "gi"`, line 289) and reuses the one regex
object across every `test` call, so `lastIndex` carries over between
descriptors.  Against a backend exposing `readFile` and `readData`, the
name-scoped search for `read` returns only `readFile`: after the first
match `lastIndex` is 4, and `readData` is tested from position 4 where the
pattern no longer occurs.  The per-descriptor semantics the spec states —
the very stateless filter `findTools` itself uses — accepts both, as the
second conjunct shows. -/
theorem findToolsInServer_stateful_regex_bug :
    findToolsInServer compileRead ⟨[("b", twoReadClient)]⟩ "b" "read"
      SearchScope.name true
      = Except.ok [⟨some "readFile", none⟩] ∧
    (([⟨some "readFile", none, none⟩, ⟨some "readData", none, none⟩] :
        List Tool).filter
        (toolMatchS SearchScope.name readMatcher)).map toSummary
      = [⟨some "readFile", none⟩, ⟨some "readData", none⟩] := by decide

/-- Claim C5: the all-backends search with a valid pattern always returns
normally; each backend's slot in the result object depends only on that
backend's own listing outcome — a listing failure yields exactly one
synthetic error marker carrying the failure message, a malformed listing
or zero matches yields no slot at all, and matches are kept regardless of
other backends' failures. -/
theorem findTools_best_effort
    (compile : String → Bool → Except String Matcher) (m : Matcher)
    (st : ManagerState) (pattern : String) (scope : SearchScope) (cs : Bool)
    (hc : compile pattern (!cs) = Except.ok m)
    (hnd : (mapKeys st.clients).Nodup) :
    exceptOk (findTools compile st pattern scope cs) = true ∧
    (∀ serverName c, mapGet st.clients serverName = some c →
      ((∀ msg, c.listToolsResult = Except.error msg →
          mapGet (okEntries (findTools compile st pattern scope cs)) serverName
            = some [SearchEntry.errorMarker
                ("Failed to search tools: " ++ msg)]) ∧
       (c.listToolsResult = Except.ok none →
          mapGet (okEntries (findTools compile st pattern scope cs)) serverName
            = none) ∧
       (∀ tools, c.listToolsResult = Except.ok (some tools) →
          mapGet (okEntries (findTools compile st pattern scope cs)) serverName
            = (if ((tools.filter (toolMatchS scope m)).map
                  (fun t => SearchEntry.tool t.name t.description)).isEmpty
               then none
               else some ((tools.filter (toolMatchS scope m)).map
                  (fun t => SearchEntry.tool t.name t.description)))))) := by
  by_cases hcl : st.clients = []
  · constructor
    · simp [findTools, getConnectedServers, mapKeys, hcl, exceptOk]
    · intro n c hc2
      rw [hcl] at hc2
      simp [mapGet] at hc2
  · have hemp : (getConnectedServers st).isEmpty = false := by
      cases hcs : st.clients with
      | nil => exact absurd hcs hcl
      | cons a l => simp [getConnectedServers, mapKeys, hcs]
    have hft : findTools compile st pattern scope cs
        = Except.ok (findToolsGo scope m st (getConnectedServers st)) := by
      simp [findTools, hemp, hc]
    constructor
    · simp [hft, exceptOk]
    · intro n c hget
      have hmem : n ∈ mapKeys st.clients := mapGet_mem _ _ _ hget
      have hgo := findToolsGo_mem scope m st (mapKeys st.clients) n c hnd
        hmem hget
      refine ⟨?_, ?_, ?_⟩
      · intro msg hres
        rw [hres] at hgo
        simpa [hft, okEntries, getConnectedServers] using hgo
      · intro hres
        rw [hres] at hgo
        simpa [hft, okEntries, getConnectedServers] using hgo
      · intro tools hres
        rw [hres] at hgo
        simpa [hft, okEntries, getConnectedServers] using hgo

/-- Concrete instance of C5: a backend whose listing call rejects gets the
single synthetic error-marker slot. -/
theorem findTools_best_effort_witness :
    mapGet (okEntries (findTools compileRead ⟨[("a", failListClient)]⟩
        "read" SearchScope.both false)) "a"
      = some [SearchEntry.errorMarker ("Failed to search tools: " ++ "boom")] :=
  ((findTools_best_effort compileRead readMatcher ⟨[("a", failListClient)]⟩
      "read" SearchScope.both false rfl (by decide)).2 "a" failListClient
      (by decide)).1 "boom" rfl

/-- Claim C6: when the transport-level open fails, `connectToServer` fails
with `ConnectionFailed` carrying the underlying cause and returns the
registry exactly unchanged — no entry inserted, none altered. -/
theorem connectToServer_failure_unchanged (parseUrl : String → Option String)
    (hostEnv : List (String × String))
    (openRes : Transport → Except String Client) (st : ManagerState)
    (serverName : String) (p : ConnectParams) (tr : Transport)
    (cause : String)
    (habs : mapHas st.clients serverName = false)
    (hbuild : buildTransport parseUrl hostEnv serverName p = Except.ok tr)
    (hopen : openRes tr = Except.error cause) :
    connectToServer parseUrl hostEnv openRes st serverName p
      = (Except.error (McpError.connectionFailed serverName cause), st) := by
  simp [connectToServer, habs, hbuild, hopen]

/-- Concrete instance of C6: a stdio connect whose process fails to start
leaves an empty registry empty. -/
theorem connectToServer_failure_unchanged_witness :
    connectToServer (fun _ => none) [] (fun _ => Except.error "spawn ENOENT")
      ⟨[]⟩ "s" ⟨none, some "node", none, none, none, none⟩
      = (Except.error (McpError.connectionFailed "s" "spawn ENOENT"), ⟨[]⟩) :=
  connectToServer_failure_unchanged (fun _ => none) []
    (fun _ => Except.error "spawn ENOENT") ⟨[]⟩ "s"
    ⟨none, some "node", none, none, none, none⟩
    (Transport.stdio "node" [] []) "spawn ENOENT" rfl (by decide) rfl

/-- Claim C7: connecting a name already in the registry always fails with
`AlreadyConnected` and returns the registry unchanged, for every transport
oracle — the rejection happens before any transport is opened. -/
theorem connectToServer_already_connected (parseUrl : String → Option String)
    (hostEnv : List (String × String))
    (openRes : Transport → Except String Client) (st : ManagerState)
    (serverName : String) (p : ConnectParams)
    (h : mapHas st.clients serverName = true) :
    connectToServer parseUrl hostEnv openRes st serverName p
      = (Except.error (McpError.alreadyConnected serverName), st) := by
  simp [connectToServer, h]

/-- Concrete instance of C7. -/
theorem connectToServer_already_connected_witness :
    connectToServer (fun _ => none) [] (fun _ => Except.error "e")
      ⟨[("a", plainClient)]⟩ "a" ⟨none, none, none, none, none, none⟩
      = (Except.error (McpError.alreadyConnected "a"),
         ⟨[("a", plainClient)]⟩) :=
  connectToServer_already_connected (fun _ => none) []
    (fun _ => Except.error "e") ⟨[("a", plainClient)]⟩ "a"
    ⟨none, none, none, none, none, none⟩ (by decide)

/-- Claim C8: the transport variant is the explicit discriminant when that
field is truthy, otherwise inferred from the presence of a launch command
(`"stdio"` is the Process variant, `"http"` the Streamed variant); a
non-HTTP connect without a command fails with `MissingCommand`, an HTTP
connect without a URL fails with `MissingUrl`, and an HTTP connect whose
URL does not parse fails with `InvalidUrl` — each for every session-open
oracle, i.e. without opening a session. -/
theorem connectToServer_transport_discrimination
    (parseUrl : String → Option String) (hostEnv : List (String × String))
    (openRes : Transport → Except String Client) (st : ManagerState)
    (serverName : String) (p : ConnectParams)
    (habs : mapHas st.clients serverName = false) :
    (truthy p.type = true → transportTypeOf p = p.type.getD "") ∧
    (truthy p.type = false →
      transportTypeOf p = (if truthy p.command then "stdio" else "http")) ∧
    (transportTypeOf p ≠ "http" → truthy p.command = false →
      connectToServer parseUrl hostEnv openRes st serverName p
        = (Except.error (McpError.missingCommand serverName), st)) ∧
    (transportTypeOf p = "http" → truthy p.url = false →
      connectToServer parseUrl hostEnv openRes st serverName p
        = (Except.error (McpError.missingUrl serverName), st)) ∧
    (transportTypeOf p = "http" → truthy p.url = true →
      parseUrl (p.url.getD "") = none →
      connectToServer parseUrl hostEnv openRes st serverName p
        = (Except.error (McpError.invalidUrl (p.url.getD "")), st)) := by
  refine ⟨?_, ?_, ?_, ?_, ?_⟩
  · intro ht; simp [transportTypeOf, ht]
  · intro ht; simp [transportTypeOf, ht]
  · intro hty hcmd
    simp [connectToServer, habs, buildTransport, hty, hcmd]
  · intro hty hurl
    simp [connectToServer, habs, buildTransport, hty, hurl]
  · intro hty hurl hparse
    simp [connectToServer, habs, buildTransport, hty, hurl, hparse]

/-- Concrete instance of C8: no discriminant and no command infer the
Streamed variant, and the absent URL is rejected without opening
anything. -/
theorem connectToServer_transport_discrimination_witness :
    connectToServer (fun _ => none) [] (fun _ => Except.error "e") ⟨[]⟩ "s"
      ⟨none, none, none, none, none, none⟩
      = (Except.error (McpError.missingUrl "s"), ⟨[]⟩) :=
  (connectToServer_transport_discrimination (fun _ => none) []
      (fun _ => Except.error "e") ⟨[]⟩ "s"
      ⟨none, none, none, none, none, none⟩ rfl).2.2.2.1 (by decide) rfl

/-- Claim C9: for a backend reporting a fixed listing, the summary listing
is exactly the full listing projected descriptor by descriptor to name and
description; zero capabilities or a malformed listing shape yield an empty
sequence rather than an error. -/
theorem listTools_summary_projection (st : ManagerState)
    (serverName : String) :
    (∀ tools, listTools st serverName = Except.ok (some tools) →
      listToolsInServer st serverName = Except.ok (tools.map toSummary)) ∧
    (listTools st serverName = Except.ok (some []) →
      listToolsInServer st serverName = Except.ok []) ∧
    (listTools st serverName = Except.ok none →
      listToolsInServer st serverName = Except.ok []) := by
  have h1 : ∀ tools, listTools st serverName = Except.ok (some tools) →
      listToolsInServer st serverName = Except.ok (tools.map toSummary) := by
    intro tools h
    cases hg : mapGet st.clients serverName with
    | none => simp [listTools, getClient, hg] at h
    | some c =>
      cases hres : c.listToolsResult with
      | error msg => simp [listTools, getClient, hg, hres] at h
      | ok r =>
        simp [listTools, getClient, hg, hres] at h
        simp [listToolsInServer, getClient, hg, hres, h]
  have h3 : listTools st serverName = Except.ok none →
      listToolsInServer st serverName = Except.ok [] := by
    intro h
    cases hg : mapGet st.clients serverName with
    | none => simp [listTools, getClient, hg] at h
    | some c =>
      cases hres : c.listToolsResult with
      | error msg => simp [listTools, getClient, hg, hres] at h
      | ok r =>
        simp [listTools, getClient, hg, hres] at h
        simp [listToolsInServer, getClient, hg, hres, h]
  exact ⟨h1, fun h => by simpa using h1 [] h, h3⟩

/-- Concrete instance of C9. -/
theorem listTools_summary_projection_witness :
    listToolsInServer ⟨[("b", readFileClient)]⟩ "b"
      = Except.ok
          (([⟨some "readFile", none, none⟩] : List Tool).map toSummary) :=
  (listTools_summary_projection ⟨[("b", readFileClient)]⟩ "b").1
    [⟨some "readFile", none, none⟩] rfl

/-- Claim C10: with a truthy blueprint id and a successful configuration
fetch, `loadFromBlueprint` returns normally whatever each individual
connect does (already-present names are skipped, connect failures are
caught and logged), and every entry that was registered beforehand is left
untouched. -/
theorem loadFromBlueprint_resilient (parseUrl : String → Option String)
    (hostEnv : List (String × String))
    (openRes : String → Transport → Except String Client)
    (entries : List (String × ConnectParams)) (argId mgrId : Option String)
    (st : ManagerState)
    (hid : truthy (if truthy argId then argId else mgrId) = true) :
    (loadFromBlueprint parseUrl hostEnv openRes (Except.ok entries)
        argId mgrId st).1 = Except.ok () ∧
    (∀ serverName, mapHas st.clients serverName = true →
      mapGet (loadFromBlueprint parseUrl hostEnv openRes (Except.ok entries)
          argId mgrId st).2.clients serverName
        = mapGet st.clients serverName) := by
  by_cases he : entries.isEmpty = true
  · constructor
    · simp [loadFromBlueprint, hid, he]
    · intro n h
      simp [loadFromBlueprint, hid, he]
  · have he' : entries.isEmpty = false := by simpa using he
    constructor
    · simp [loadFromBlueprint, hid, he']
    · intro n h
      simpa [loadFromBlueprint, hid, he'] using
        loadLoop_preserves parseUrl hostEnv openRes n entries st h

/-- Concrete instance of C10: one already-present entry is skipped and one
failing connect is swallowed, the call returning normally with the old
entry intact. -/
theorem loadFromBlueprint_resilient_witness :
    (loadFromBlueprint (fun _ => none) [] (fun _ _ => Except.error "e")
        (Except.ok [("p", ⟨none, none, none, none, none, none⟩),
                    ("q", ⟨none, none, none, none, none, none⟩)])
        (some "bp") none ⟨[("p", plainClient)]⟩).1 = Except.ok () ∧
    mapGet (loadFromBlueprint (fun _ => none) [] (fun _ _ => Except.error "e")
        (Except.ok [("p", ⟨none, none, none, none, none, none⟩),
                    ("q", ⟨none, none, none, none, none, none⟩)])
        (some "bp") none ⟨[("p", plainClient)]⟩).2.clients "p"
      = mapGet (ManagerState.mk [("p", plainClient)]).clients "p" :=
  ⟨(loadFromBlueprint_resilient (fun _ => none) []
      (fun _ _ => Except.error "e")
      [("p", ⟨none, none, none, none, none, none⟩),
       ("q", ⟨none, none, none, none, none, none⟩)]
      (some "bp") none ⟨[("p", plainClient)]⟩ (by decide)).1,
   (loadFromBlueprint_resilient (fun _ => none) []
      (fun _ _ => Except.error "e")
      [("p", ⟨none, none, none, none, none, none⟩),
       ("q", ⟨none, none, none, none, none, none⟩)]
      (some "bp") none ⟨[("p", plainClient)]⟩ (by decide)).2 "p" rfl⟩

end Muxio
